import Mathlib

/-!
Shallow embedding of the LocalVisionAI inference-coordination core:
capability detection (`src/lib/capabilities.ts`), the availability cache
(`src/lib/ollama-cache.ts`), the Ollama client (request assembly, data-URL
stripping, pull-progress parsing), the browser fallback engine
(`src/lib/browser-inference.ts`), the performance monitor, and the
`InferenceManager` state machine.  Network and host effects are passed in
explicitly as environment values; JavaScript strings are modelled as `List
Char`, JavaScript numbers as `ℚ` (the operations used — push/shift,
comparisons, exact divisions — are float-exact on the values involved).
-/

/-- The two inference pipelines; the source's `InferencePipeline` union
`'ollama' | 'browser'` (the spec calls them `remote` and `local`). -/
inductive InferencePipeline
  | ollama
  | browser
deriving DecidableEq, Repr

/-- `AnalysisResult` from `types.ts`. -/
structure AnalysisResult where
  id : String
  timestamp : ℤ
  caption : String
  reasoning : Option String
  confidence : ℚ
  processingTime : ℚ
  pipeline : InferencePipeline
  model : String
deriving DecidableEq, Repr

/-- `InferenceConfig` from `types.ts`. -/
structure InferenceConfig where
  pipeline : InferencePipeline
  model : String
  quantization : Option String
  maxTokens : Option ℕ
  temperature : Option ℚ
deriving DecidableEq, Repr

/-- `SystemCapabilities` from `types.ts`. -/
structure SystemCapabilities where
  webGPU : Bool
  webAssembly : Bool
  ollamaAvailable : Bool
  recommendedPipeline : InferencePipeline
  gpuInfo : Option String
  memoryLimit : Option ℚ
deriving DecidableEq, Repr

/-- Outcomes of the five independent probes run by
`detectSystemCapabilities` (each probe catches its own errors and
degrades to `false`/`none`, so a boolean/option outcome is faithful). -/
structure CapabilityProbes where
  webGPU : Bool
  webAssembly : Bool
  ollamaAvailable : Bool
  gpuInfo : Option String
  memoryLimit : Option ℚ
deriving DecidableEq, Repr

/-- `detectSystemCapabilities` (`src/lib/capabilities.ts`): assembles the
probe outcomes and picks the recommended pipeline with the source's
mutable-variable logic (`browser` default, `ollama` when available,
`browser` again on the `webGPU` branch). -/
def detectSystemCapabilities (p : CapabilityProbes) : SystemCapabilities :=
  let recommendedPipeline : InferencePipeline :=
    if p.ollamaAvailable then .ollama
    else if p.webGPU then .browser
    else .browser
  { webGPU := p.webGPU
    webAssembly := p.webAssembly
    ollamaAvailable := p.ollamaAvailable
    recommendedPipeline := recommendedPipeline
    gpuInfo := p.gpuInfo
    memoryLimit := p.memoryLimit }

/-- The module-level `ollamaCheckCache` slot of `src/lib/ollama-cache.ts`. -/
structure OllamaCheckCache where
  checked : Bool
  available : Bool
  timestamp : ℤ
deriving DecidableEq, Repr

/-- `CACHE_DURATION` (30 seconds, in milliseconds). -/
def CACHE_DURATION : ℤ := 30000

/-- The hostname guard of `detectOllamaCached`: true when running in a
browser (`window` defined, hostname given) on a host other than
`localhost`/`127.0.0.1`. -/
def isNonLocalDeployment (hostname : Option String) : Bool :=
  match hostname with
  | none => false
  | some h => if h = ("localhost") ∨ h = ("127.0.0.1") then false else true

/-- Observable outcome of one `detectOllamaCached()` call: the returned
boolean, the new value of the module-level cache slot, and whether a live
network probe (the `fetch` to `/api/tags`) was attempted. -/
structure CacheCallResult where
  result : Bool
  newCache : Option OllamaCheckCache
  didProbe : Bool
deriving DecidableEq, Repr

/-- `detectOllamaCached` (`src/lib/ollama-cache.ts`).  `cache` is the
current slot, `now` is `Date.now()`, `hostname` the browser location (or
`none` outside a browser), and `probeOk` the outcome the live probe would
produce (`response.ok`; a thrown fetch error lands in the same
`available = false` path as a non-2xx response). -/
def detectOllamaCached (cache : Option OllamaCheckCache) (now : ℤ)
    (hostname : Option String) (probeOk : Bool) : CacheCallResult :=
  match cache with
  | some e =>
      if now - e.timestamp < CACHE_DURATION then
        { result := e.available, newCache := some e, didProbe := false }
      else if isNonLocalDeployment hostname then
        { result := false
          newCache := some { checked := true, available := false, timestamp := now }
          didProbe := false }
      else
        { result := probeOk
          newCache := some { checked := true, available := probeOk, timestamp := now }
          didProbe := true }
  | none =>
      if isNonLocalDeployment hostname then
        { result := false
          newCache := some { checked := true, available := false, timestamp := now }
          didProbe := false }
      else
        { result := probeOk
          newCache := some { checked := true, available := probeOk, timestamp := now }
          didProbe := true }

/-- `clearOllamaCache` (`src/lib/ollama-cache.ts`). -/
def clearOllamaCache : Option OllamaCheckCache := none

/-- Number of live probes (0 or 1) a call performed. -/
def probeCount (r : CacheCallResult) : ℕ := if r.didProbe then 1 else 0

/-- JavaScript `String.prototype.indexOf` on char lists: index of the first
occurrence of `pat` in the list, `none` when absent. -/
def indexOfL (pat : List Char) : List Char → Option ℕ
  | [] => if pat.isPrefixOf ([] : List Char) then some 0 else none
  | c :: t =>
      if pat.isPrefixOf (c :: t) then some 0
      else (indexOfL pat t).map (fun n => n + 1)

/-- `OllamaClient.stripDataUrlPrefix` (`ollama-client.ts`): when the string
starts with `data:` and contains `base64,`, drop everything up to and
including the marker; otherwise return the string unchanged. -/
def stripDataUrl (s : List Char) : List Char :=
  if (("data:").toList).isPrefixOf s then
    match indexOfL (("base64,").toList) s with
    | some i => s.drop (i + 7)
    | none => s
  else s

/-- The `OllamaGenerateRequest` body assembled by `analyzeImage` /
`analyzeStream` (`ollama-client.ts`). -/
structure OllamaGenerateRequest where
  model : String
  prompt : String
  images : List (List Char)
  stream : Bool
  temperature : ℚ
  numPredict : ℕ
deriving DecidableEq, Repr

/-- The request `OllamaClient.analyzeImage` transmits to `/api/generate`:
the cleaned image (`stripDataUrlPrefix`) as `images[0]`, fixed options
`temperature = 0.7`, `num_predict = 200`. -/
def analyzeImageRequest (imageBase64 : List Char) (model prompt : String) :
    OllamaGenerateRequest :=
  { model := model
    prompt := prompt
    images := [stripDataUrl imageBase64]
    stream := false
    temperature := 7 / 10
    numPredict := 200 }

/-- A parsed newline-delimited JSON progress line consumed by
`OllamaClient.pullModel`: the `total`, `completed` and `status` fields,
each possibly absent. -/
structure PullLine where
  total : Option ℚ
  completed : Option ℚ
  status : Option String
deriving DecidableEq, Repr

/-- JavaScript truthiness of a possibly-absent JSON number: `undefined`
and `0` are falsy. -/
def jsTruthy : Option ℚ → Bool
  | none => false
  | some x => x ≠ 0

/-- Progress-callback invocations `pullModel` makes for one parsed line
(`if (data.total && data.completed && onProgress) onProgress((completed /
total) * 100)`); `cb` records whether an `onProgress` callback was
supplied. -/
def pullLineEvents (cb : Bool) (line : PullLine) : List ℚ :=
  if jsTruthy line.total && jsTruthy line.completed && cb then
    [line.completed.getD 0 / line.total.getD 0 * 100]
  else []

/-- Progress-callback invocations over a whole pull stream, in arrival
order. -/
def pullEvents (cb : Bool) (lines : List PullLine) : List ℚ :=
  lines.flatMap (pullLineEvents cb)

/-- Compute device selected by `BrowserInference.detectDevice`. -/
inductive Device
  | gpu
  | cpu
deriving DecidableEq, Repr

/-- Mock model handle loaded by the simulated loading phases. -/
structure ModelHandle where
  name : String
  loaded : Bool
deriving DecidableEq, Repr

/-- The `BrowserInferenceEngine` record of `browser-inference.ts`. -/
structure BrowserEngineState where
  initialized : Bool
  visionModel : Option ModelHandle
  reasoningModel : Option ModelHandle
  device : Device
deriving DecidableEq, Repr

/-- Instance state of the `BrowserInference` class: the engine record plus
the `loadingProgress` field. -/
structure BrowserInferenceState where
  engine : BrowserEngineState
  loadingProgress : ℚ
deriving DecidableEq, Repr

/-- Fresh `BrowserInference` instance (the module singleton at load). -/
def initialBrowserState : BrowserInferenceState :=
  { engine := { initialized := false, visionModel := none, reasoningModel := none,
                device := .cpu }
    loadingProgress := 0 }

/-- Progress values reported by `simulateLoading(duration, startP, endP)`:
ten steps of `startP + increment * (i + 1)`. -/
def simulateLoadingEvents (startP endP : ℚ) : List ℚ :=
  (List.range 10).map (fun i => startP + (endP - startP) / 10 * (i + 1))

/-- `BrowserInference.initialize` (`src/lib/browser-inference.ts`): runs
device detection, then the two simulated model-loading phases, marking the
engine initialized at the end.  There is no already-initialized guard in
the method — every call re-runs all phases.  Returns the new state and the
list of `updateProgress` values emitted (delivered to the `onProgress`
callback when one was supplied). -/
def browserInitialize (_st : BrowserInferenceState) (detectedDevice : Device) :
    BrowserInferenceState × List ℚ :=
  let events : List ℚ :=
    [10] ++ simulateLoadingEvents 10 60 ++ [60]
      ++ simulateLoadingEvents 60 100 ++ [100]
  let engine : BrowserEngineState :=
    { initialized := true
      visionModel := some { name := ("SmolVLM-Instruct"), loaded := true }
      reasoningModel := some { name := ("llama-2-7b-q4"), loaded := true }
      device := detectedDevice }
  ({ engine := engine, loadingProgress := 100 }, events)

/-- `PerformanceMetrics` (`types.ts`), the monitor's `currentMetrics`. -/
structure PerformanceMetrics where
  latency : ℚ
  memoryUsage : ℚ
  fps : ℚ
  gpuActive : Bool
  averageLatency : Option ℚ
  peakMemory : Option ℚ
deriving DecidableEq, Repr

/-- `PerformanceMonitor` instance state: the `latencies` array and
`currentMetrics` (the `maxLatencyHistory` field is the constant 50). -/
structure MonitorState where
  latencies : List ℚ
  currentMetrics : PerformanceMetrics
deriving DecidableEq, Repr

/-- `maxLatencyHistory`. -/
def maxLatencyHistory : ℕ := 50

/-- A fresh `PerformanceMonitor` (also the state after `reset()`). -/
def initialMonitor : MonitorState :=
  { latencies := []
    currentMetrics :=
      { latency := 0, memoryUsage := 0, fps := 0, gpuActive := false,
        averageLatency := none, peakMemory := none } }

/-- `getAverageLatency`. -/
def getAverageLatency (st : MonitorState) : ℚ :=
  if st.latencies = [] then 0
  else st.latencies.sum / st.latencies.length

/-- `recordLatency`: push the sample, shift the oldest out when the array
exceeds 50 entries, refresh `latency` and `averageLatency`. -/
def recordLatency (st : MonitorState) (latency : ℚ) : MonitorState :=
  let pushed := st.latencies ++ [latency]
  let kept := if maxLatencyHistory < pushed.length then pushed.drop 1 else pushed
  let st1 : MonitorState := { st with latencies := kept }
  { st1 with currentMetrics :=
      { st1.currentMetrics with
          latency := latency
          averageLatency := some (getAverageLatency st1) } }

/-- The host's non-standard `performance.memory` reading (byte counts), or
`none` when absent (including outside a browser). -/
structure MemBytes where
  usedJSHeapSize : ℚ
  totalJSHeapSize : ℚ
deriving DecidableEq, Repr

/-- `getMemoryUsage`: `usedJSHeapSize` in GB, 0 without the API. -/
def getMemoryUsage (mem : Option MemBytes) : ℚ :=
  match mem with
  | none => 0
  | some m => m.usedJSHeapSize / (1024 * 1024 * 1024)

/-- `getPeakMemory`: despite its name this reads the instantaneous
`totalJSHeapSize` (in GB) on every call, 0 without the API. -/
def getPeakMemory (mem : Option MemBytes) : ℚ :=
  match mem with
  | none => 0
  | some m => m.totalJSHeapSize / (1024 * 1024 * 1024)

/-- One tick of the `startMemoryMonitoring` interval: refresh
`memoryUsage` and raise the `peakMemory` high-water mark
(`if (!peakMemory || peak > peakMemory) peakMemory = peak`; JavaScript
falsiness makes an undefined or zero stored mark update unconditionally). -/
def memoryMonitorTick (st : MonitorState) (mem : Option MemBytes) : MonitorState :=
  let memoryUsage := getMemoryUsage mem
  let peak := getPeakMemory mem
  let newPeak : Option ℚ :=
    match st.currentMetrics.peakMemory with
    | none => some peak
    | some p => if p = 0 ∨ p < peak then some peak else some p
  { st with currentMetrics :=
      { st.currentMetrics with memoryUsage := memoryUsage, peakMemory := newPeak } }

/-- `setGPUActive`. -/
def setGPUActive (st : MonitorState) (active : Bool) : MonitorState :=
  { st with currentMetrics := { st.currentMetrics with gpuActive := active } }

/-- JavaScript `Math.max(...l)` on the guarded non-empty array. -/
def jsMax : List ℚ → ℚ
  | [] => 0
  | a :: t => t.foldl max a

/-- JavaScript `Math.min(...l)` on the guarded non-empty array. -/
def jsMin : List ℚ → ℚ
  | [] => 0
  | a :: t => t.foldl min a

/-- The record returned by `getSummary()`.  `currentMemory` and
`peakMemory` are computed from the instantaneous host reading passed in
(`getMemoryUsage()` / `getPeakMemory()`). -/
structure PerformanceSummary where
  averageLatency : ℚ
  minLatency : ℚ
  maxLatency : ℚ
  currentMemory : ℚ
  peakMemory : ℚ
  gpuActive : Bool
deriving DecidableEq, Repr

/-- `PerformanceMonitor.getSummary`. -/
def getSummary (st : MonitorState) (mem : Option MemBytes) : PerformanceSummary :=
  { averageLatency := getAverageLatency st
    minLatency := if st.latencies.length > 0 then jsMin st.latencies else 0
    maxLatency := if st.latencies.length > 0 then jsMax st.latencies else 0
    currentMemory := getMemoryUsage mem
    peakMemory := getPeakMemory mem
    gpuActive := st.currentMetrics.gpuActive }

/-- Monitor-mutating operations other than `reset()`, with the host memory
reading each monitoring tick observes. -/
inductive MonitorOp
  | record (latency : ℚ)
  | tick (mem : Option MemBytes)
  | setGPU (active : Bool)
deriving Repr

/-- Apply one monitor operation. -/
def applyMonitorOp (st : MonitorState) : MonitorOp → MonitorState
  | .record l => recordLatency st l
  | .tick mem => memoryMonitorTick st mem
  | .setGPU b => setGPUActive st b

/-- Apply a sequence of monitor operations. -/
def applyMonitorOps (st : MonitorState) (ops : List MonitorOp) : MonitorState :=
  ops.foldl applyMonitorOp st

/-- Latency history after a sequence of `recordLatency` calls on a fresh
monitor. -/
def recordAll (xs : List ℚ) : List ℚ :=
  (xs.foldl recordLatency initialMonitor).latencies

/-- `browserInference.analyze` gate: rejects with `"Inference engine not
initialized"` unless `initialize()` completed; once initialized, the
outcome of the heuristic analysis is supplied by the environment. -/
def browserAnalyze (est : BrowserInferenceState)
    (outcome : Except String AnalysisResult) : Except String AnalysisResult :=
  if est.engine.initialized then outcome
  else .error ("Inference engine not initialized")

/-- Environment of one `InferenceManager` operation: the outcome
`ollamaClient.isAvailable()` would report, the outcome of a remote
`ollamaClient.analyze` request per image, the device
`BrowserInference.detectDevice` would select, and the outcome of a browser
heuristic analysis per image (once the engine is initialized). -/
structure ManagerEnv where
  ollamaAvailable : Bool
  remoteAnalyze : String → Except String AnalysisResult
  detectedDevice : Device
  engineAnalyze : String → Except String AnalysisResult

/-- Externally visible calls the manager makes on its collaborators. -/
inductive Effect
  | checkRemoteAvailability
  | remoteAnalyzeReq (image : String)
  | engineInit
  | engineAnalyzeCall (image : String)
  | recordLatencyCall
  | setGPUActiveCall (active : Bool)
deriving DecidableEq, Repr

/-- `InferenceManager` instance state (`inference-manager.ts`): the private
config copy, the working pipeline, the `browserInitialized` flag, and the
state of the `browserInference` singleton it drives. -/
structure ManagerState where
  config : InferenceConfig
  currentPipeline : InferencePipeline
  browserInitialized : Bool
  engineState : BrowserInferenceState
deriving DecidableEq, Repr

/-- The `InferenceManager` constructor. -/
def managerNew (config : InferenceConfig) : ManagerState :=
  { config := config
    currentPipeline := config.pipeline
    browserInitialized := false
    engineState := initialBrowserState }

/-- `InferenceManager.getCurrentPipeline` (pure query). -/
def getCurrentPipeline (st : ManagerState) : InferencePipeline :=
  st.currentPipeline

/-- `InferenceManager.getConfig` (pure query, returns a copy). -/
def getConfig (st : ManagerState) : InferenceConfig :=
  st.config

/-- `InferenceManager.initialize`: when the working pipeline is `ollama`,
check remote availability and silently downgrade to `browser` when
unavailable; then, when the working pipeline is `browser` and the engine
has not been initialized yet, run the engine's initialization and publish
the GPU flag.  Never fails. -/
def managerInitialize (st : ManagerState) (env : ManagerEnv) :
    ManagerState × List Effect :=
  let (st1, tr1) :=
    if st.currentPipeline = .ollama then
      if env.ollamaAvailable then (st, [Effect.checkRemoteAvailability])
      else ({ st with currentPipeline := .browser }, [Effect.checkRemoteAvailability])
    else (st, ([] : List Effect))
  if st1.currentPipeline = .browser ∧ st1.browserInitialized = false then
    let est := (browserInitialize st1.engineState env.detectedDevice).1
    ({ st1 with browserInitialized := true, engineState := est },
      tr1 ++ [Effect.engineInit,
        Effect.setGPUActiveCall (decide (est.engine.device = Device.gpu))])
  else (st1, tr1)

/-- Outcome of one `InferenceManager.analyze` call. -/
structure AnalyzeOut where
  result : Except String AnalysisResult
  state : ManagerState
  trace : List Effect
deriving Repr

/-- `InferenceManager.analyze`: dispatch on the working pipeline; on a
remote failure, lazily initialize the browser engine, retry against it and
— after the retry succeeds — permanently switch the working pipeline to
`browser`.  A successful call records its latency; a failed one rethrows. -/
def managerAnalyze (st : ManagerState) (env : ManagerEnv) (img : String) :
    AnalyzeOut :=
  if st.currentPipeline = .ollama then
    match env.remoteAnalyze img with
    | .ok r =>
        { result := .ok r, state := st
          trace := [Effect.remoteAnalyzeReq img, Effect.recordLatencyCall] }
    | .error _e =>
        let (st1, tr1) :=
          if st.browserInitialized = false then
            (({ st with
                  browserInitialized := true
                  engineState := (browserInitialize st.engineState env.detectedDevice).1 }
              : ManagerState), [Effect.engineInit])
          else (st, ([] : List Effect))
        match browserAnalyze st1.engineState (env.engineAnalyze img) with
        | .ok r =>
            { result := .ok r
              state := { st1 with currentPipeline := .browser }
              trace := [Effect.remoteAnalyzeReq img] ++ tr1
                ++ [Effect.engineAnalyzeCall img, Effect.recordLatencyCall] }
        | .error e2 =>
            { result := .error e2, state := st1
              trace := [Effect.remoteAnalyzeReq img] ++ tr1
                ++ [Effect.engineAnalyzeCall img] }
  else
    match browserAnalyze st.engineState (env.engineAnalyze img) with
    | .ok r =>
        { result := .ok r, state := st
          trace := [Effect.engineAnalyzeCall img, Effect.recordLatencyCall] }
    | .error e =>
        { result := .error e, state := st
          trace := [Effect.engineAnalyzeCall img] }

/-- Outcome of one `InferenceManager.switchPipeline` call. -/
structure SwitchOut where
  result : Except String Unit
  state : ManagerState
  trace : List Effect
deriving Repr

/-- `InferenceManager.switchPipeline`: no-op when already on the target;
switching to `ollama` re-validates availability and throws `"Ollama not
available"` when it fails (before any mutation); switching to `browser`
lazily initializes the engine.  A successful switch also updates the
stored config's pipeline. -/
def managerSwitchPipeline (st : ManagerState) (env : ManagerEnv)
    (pipeline : InferencePipeline) : SwitchOut :=
  if pipeline = st.currentPipeline then
    { result := .ok (), state := st, trace := [] }
  else
    match pipeline with
    | .ollama =>
        if env.ollamaAvailable then
          { result := .ok ()
            state := { st with
              currentPipeline := .ollama
              config := { st.config with pipeline := .ollama } }
            trace := [Effect.checkRemoteAvailability] }
        else
          { result := .error ("Ollama not available"), state := st
            trace := [Effect.checkRemoteAvailability] }
    | .browser =>
        let (st1, tr1) :=
          if st.browserInitialized = false then
            let est := (browserInitialize st.engineState env.detectedDevice).1
            (({ st with browserInitialized := true, engineState := est }
              : ManagerState),
             [Effect.engineInit,
              Effect.setGPUActiveCall (decide (est.engine.device = Device.gpu))])
          else (st, ([] : List Effect))
        { result := .ok ()
          state := { st1 with
            currentPipeline := .browser
            config := { st1.config with pipeline := .browser } }
          trace := tr1 }

/-- Whether a trace contains a remote generation request. -/
def hasRemoteReq (tr : List Effect) : Bool :=
  tr.any (fun e => match e with
    | .remoteAnalyzeReq _ => true
    | _ => false)

/-- Whether a trace contains an engine initialization. -/
def hasEngineInit (tr : List Effect) : Bool :=
  tr.any (fun e => match e with
    | .engineInit => true
    | _ => false)

/-- A sequence of subsequent `analyze` calls (each with its own
environment and image), with the accumulated trace. -/
def runAnalyses (st : ManagerState) :
    List (ManagerEnv × String) → ManagerState × List Effect
  | [] => (st, [])
  | (env, img) :: rest =>
      ((runAnalyses (managerAnalyze st env img).state rest).1,
        (managerAnalyze st env img).trace
          ++ (runAnalyses (managerAnalyze st env img).state rest).2)

/-- Claim C3: `detectSystemCapabilities()` recommends the remote
(`ollama`) pipeline iff the remote-server probe reports reachable, and
recommends the local (`browser`) pipeline otherwise; the GPU probe result
is passed through unchanged and never overrides the recommendation — in
particular, server unreachable with GPU acceleration available yields
`recommendedPipeline = browser` together with `webGPU = true`. -/
theorem C3_recommendation_follows_server (p : CapabilityProbes) :
    ((detectSystemCapabilities p).recommendedPipeline = .ollama
      ↔ p.ollamaAvailable = true)
    ∧ ((detectSystemCapabilities p).recommendedPipeline = .browser
      ↔ p.ollamaAvailable = false)
    ∧ (detectSystemCapabilities p).webGPU = p.webGPU
    ∧ ((detectSystemCapabilities
          { p with ollamaAvailable := false, webGPU := true }).recommendedPipeline
            = .browser
        ∧ (detectSystemCapabilities
          { p with ollamaAvailable := false, webGPU := true }).webGPU = true) := by
  obtain ⟨gpu, wasm, ol, info, mem⟩ := p
  cases ol <;> cases gpu <;> simp [detectSystemCapabilities]

/-- A call can only probe once. -/
lemma probeCount_le_one (r : CacheCallResult) : probeCount r ≤ 1 := by
  unfold probeCount
  split <;> simp

/-- A call that probed stamped the slot with the probe result at `now`. -/
lemma newCache_of_didProbe (cache : Option OllamaCheckCache) (now : ℤ)
    (hostname : Option String) (probeOk : Bool)
    (h : (detectOllamaCached cache now hostname probeOk).didProbe = true) :
    (detectOllamaCached cache now hostname probeOk).newCache
      = some { checked := true, available := probeOk, timestamp := now } := by
  unfold detectOllamaCached at *
  rcases cache with _ | e
  · split_ifs at h ⊢
    simp_all
  · split_ifs at h ⊢ <;> simp_all
    all_goals (split_ifs at h ⊢ <;> simp_all)

/-- A fresh-enough entry is returned as-is without probing. -/
lemma cache_hit (e : OllamaCheckCache) (now : ℤ) (hostname : Option String)
    (probeOk : Bool) (h : now - e.timestamp < CACHE_DURATION) :
    detectOllamaCached (some e) now hostname probeOk
      = { result := e.available, newCache := some e, didProbe := false } := by
  unfold detectOllamaCached
  simp [h]

/-- Claim C4, counterexample: with an expired cache entry, a call made on
a non-loopback host performs no live probe (it short-circuits to
`available = false`), contradicting the claim that every post-expiry call
performs a fresh probe. -/
theorem C4_counterexample :
    CACHE_DURATION ≤ (30000 : ℤ) - 0
    ∧ (detectOllamaCached (some { checked := true, available := true, timestamp := 0 })
        30000 (some ("example.com")) true).didProbe = false
    ∧ (detectOllamaCached (some { checked := true, available := true, timestamp := 0 })
        30000 (some ("example.com")) true).result = false := by
  decide

/-- Claim C4 (amended): a cache entry strictly younger than the 30 s TTL
is returned with no probe and an unchanged slot; any two calls whose
`Date.now()` readings are less than the TTL apart issue at most one live
probe between them; a call after TTL expiry on a loopback (or
non-browser) host performs a fresh probe and overwrites the single slot
with the probe result and the current timestamp; on a non-loopback host
it instead short-circuits, overwriting the slot with `available = false`
and the current timestamp without any network call. -/
theorem C4_cache_ttl :
    (∀ (e : OllamaCheckCache) (now : ℤ) (hostname : Option String) (probeOk : Bool),
      now - e.timestamp < CACHE_DURATION →
        detectOllamaCached (some e) now hostname probeOk
          = { result := e.available, newCache := some e, didProbe := false })
    ∧ (∀ (cache : Option OllamaCheckCache) (t1 t2 : ℤ) (h1 h2 : Option String)
        (p1 p2 : Bool), 0 ≤ t2 - t1 → t2 - t1 < CACHE_DURATION →
        probeCount (detectOllamaCached cache t1 h1 p1)
          + probeCount (detectOllamaCached
              (detectOllamaCached cache t1 h1 p1).newCache t2 h2 p2) ≤ 1)
    ∧ (∀ (e : OllamaCheckCache) (now : ℤ) (hostname : Option String) (probeOk : Bool),
        CACHE_DURATION ≤ now - e.timestamp → isNonLocalDeployment hostname = false →
        detectOllamaCached (some e) now hostname probeOk
          = { result := probeOk
              newCache := some { checked := true, available := probeOk, timestamp := now }
              didProbe := true })
    ∧ (∀ (e : OllamaCheckCache) (now : ℤ) (hostname : Option String) (probeOk : Bool),
        CACHE_DURATION ≤ now - e.timestamp → isNonLocalDeployment hostname = true →
        detectOllamaCached (some e) now hostname probeOk
          = { result := false
              newCache := some { checked := true, available := false, timestamp := now }
              didProbe := false }) := by
  refine ⟨fun e now hostname probeOk h => cache_hit e now hostname probeOk h, ?_, ?_, ?_⟩
  · intro cache t1 t2 h1 h2 p1 p2 hle hlt
    by_cases hd : (detectOllamaCached cache t1 h1 p1).didProbe = true
    · rw [newCache_of_didProbe cache t1 h1 p1 hd,
        cache_hit { checked := true, available := p1, timestamp := t1 } t2 h2 p2 hlt]
      simp [probeCount, hd]
    · simp only [Bool.not_eq_true] at hd
      have h0 : probeCount (detectOllamaCached cache t1 h1 p1) = 0 := by
        simp [probeCount, hd]
      rw [h0]
      simpa using probeCount_le_one _
  · intro e now hostname probeOk hexp hloc
    unfold detectOllamaCached
    simp [show ¬(now - e.timestamp < CACHE_DURATION) by omega, hloc]
  · intro e now hostname probeOk hexp hloc
    unfold detectOllamaCached
    simp [show ¬(now - e.timestamp < CACHE_DURATION) by omega, hloc]

/-- Witness for the amended C4 theorem at concrete inputs: a hit 15 s into
the TTL, two calls 10 s apart from an empty cache, an expired entry probed
on a loopback deployment, and an expired entry short-circuited on a
non-loopback host. -/
theorem C4_cache_ttl_witness :
    detectOllamaCached (some { checked := true, available := true, timestamp := 0 })
        15000 (some ("localhost")) false
      = { result := true
          newCache := some { checked := true, available := true, timestamp := 0 }
          didProbe := false }
    ∧ probeCount (detectOllamaCached none 0 none true)
        + probeCount (detectOllamaCached (detectOllamaCached none 0 none true).newCache
            10000 none true) ≤ 1
    ∧ detectOllamaCached (some { checked := true, available := false, timestamp := 0 })
        40000 none true
      = { result := true
          newCache := some { checked := true, available := true, timestamp := 40000 }
          didProbe := true }
    ∧ detectOllamaCached (some { checked := true, available := false, timestamp := 0 })
        40000 (some ("evil.example")) true
      = { result := false
          newCache := some { checked := true, available := false, timestamp := 40000 }
          didProbe := false } :=
  ⟨C4_cache_ttl.1 _ 15000 _ false (by decide),
   C4_cache_ttl.2.1 none 0 10000 none none true true (by decide) (by decide),
   C4_cache_ttl.2.2.1 _ 40000 none true (by decide) (by decide),
   C4_cache_ttl.2.2.2 _ 40000 _ true (by decide) (by decide)⟩

/-- Concrete `InferenceConfig` requesting the remote pipeline (the
defaults `createInferenceManager('ollama')` builds). -/
def cfgOllama : InferenceConfig :=
  { pipeline := .ollama
    model := ("llava:latest")
    quantization := some ("Q4_K_M")
    maxTokens := some 200
    temperature := some (7 / 10) }

/-- Concrete `InferenceConfig` requesting the local pipeline. -/
def cfgBrowser : InferenceConfig :=
  { pipeline := .browser
    model := ("SmolVLM")
    quantization := some ("Q4_K_M")
    maxTokens := some 200
    temperature := some (7 / 10) }

/-- A concrete result the browser heuristic engine could produce. -/
def sampleLocalResult : AnalysisResult :=
  { id := ("uuid-1")
    timestamp := 0
    caption := ("A balanced scene")
    reasoning := some ("The image has a medium overall tone.")
    confidence := 3 / 4
    processingTime := 1
    pipeline := .browser
    model := ("SmolVLM + llama.cpp") }

/-- Concrete environment: remote server down (availability false, every
remote request throws), local heuristic succeeding on CPU. -/
def envRemoteDown : ManagerEnv :=
  { ollamaAvailable := false
    remoteAnalyze := fun _ => .error ("Ollama request failed: fetch failed")
    detectedDevice := .cpu
    engineAnalyze := fun _ => .ok sampleLocalResult }

/-- Claim C2: a manager configured for the remote pipeline whose Remote
Pipeline Client reports unavailable still completes `initialize()`
(modelled total — that code path cannot throw) with the working pipeline
silently downgraded: afterwards `getCurrentPipeline()` returns `browser`,
and the stored config still records the originally requested pipeline
(nothing restores it automatically). -/
theorem C2_initialize_downgrades (cfg : InferenceConfig) (env : ManagerEnv)
    (hcfg : cfg.pipeline = .ollama) (hun : env.ollamaAvailable = false) :
    (managerInitialize (managerNew cfg) env).1.currentPipeline = .browser
    ∧ getCurrentPipeline (managerInitialize (managerNew cfg) env).1 = .browser
    ∧ (managerInitialize (managerNew cfg) env).1.config = cfg := by
  unfold managerInitialize managerNew getCurrentPipeline
  simp [hcfg, hun]

/-- Witness for C2 at the concrete config and environment. -/
theorem C2_witness :
    cfgOllama.pipeline = .ollama
    ∧ envRemoteDown.ollamaAvailable = false
    ∧ ((managerInitialize (managerNew cfgOllama) envRemoteDown).1.currentPipeline
        = .browser
      ∧ getCurrentPipeline (managerInitialize (managerNew cfgOllama) envRemoteDown).1
        = .browser
      ∧ (managerInitialize (managerNew cfgOllama) envRemoteDown).1.config
        = cfgOllama) :=
  ⟨rfl, rfl, C2_initialize_downgrades cfgOllama envRemoteDown rfl rfl⟩

/-- Claim C5, counterexample: a manager whose working pipeline is already
`ollama` (remote) resolves `switchPipeline('ollama')` successfully as a
no-op without consulting availability at all — even though the Remote
Pipeline Client reports unavailable — contradicting the claim that every
such call rejects with an error. -/
theorem C5_counterexample :
    envRemoteDown.ollamaAvailable = false
    ∧ (managerNew cfgOllama).currentPipeline = .ollama
    ∧ (managerSwitchPipeline (managerNew cfgOllama) envRemoteDown .ollama).result
        = .ok ()
    ∧ (managerSwitchPipeline (managerNew cfgOllama) envRemoteDown .ollama).trace
        = [] :=
  ⟨rfl, rfl, rfl, rfl⟩

/-- Claim C5 (amended): when the switch actually occurs (the working
pipeline is not already `ollama`) and the Remote Pipeline Client reports
unavailable, `switchPipeline('ollama')` rejects with the error `"Ollama
not available"` — it never silently falls back — and leaves the whole
manager state (working pipeline and stored config included) unchanged;
when the manager is already on `ollama` the call is a no-op that succeeds
without re-validating availability. -/
theorem C5_switch_remote_unavailable (st : ManagerState) (env : ManagerEnv)
    (hcur : st.currentPipeline = .browser) (hun : env.ollamaAvailable = false) :
    (managerSwitchPipeline st env .ollama).result
      = .error ("Ollama not available")
    ∧ (managerSwitchPipeline st env .ollama).state = st := by
  unfold managerSwitchPipeline
  simp [hcur, hun]

/-- Witness for the amended C5 theorem at a concrete browser-pipeline
manager and an unavailable remote server. -/
theorem C5_witness :
    (managerNew cfgBrowser).currentPipeline = .browser
    ∧ envRemoteDown.ollamaAvailable = false
    ∧ ((managerSwitchPipeline (managerNew cfgBrowser) envRemoteDown .ollama).result
        = .error ("Ollama not available")
      ∧ (managerSwitchPipeline (managerNew cfgBrowser) envRemoteDown .ollama).state
        = managerNew cfgBrowser) :=
  ⟨rfl, rfl, C5_switch_remote_unavailable (managerNew cfgBrowser) envRemoteDown rfl rfl⟩

/-- `hasRemoteReq` distributes over trace concatenation. -/
lemma hasRemoteReq_append (a b : List Effect) :
    hasRemoteReq (a ++ b) = (hasRemoteReq a || hasRemoteReq b) := by
  unfold hasRemoteReq
  exact List.any_append

/-- Once the working pipeline is `browser`, an `analyze` call keeps it
`browser` and issues no remote generation request. -/
lemma analyze_browser_preserves (st : ManagerState) (env : ManagerEnv) (img : String)
    (h : st.currentPipeline = .browser) :
    (managerAnalyze st env img).state.currentPipeline = .browser
    ∧ hasRemoteReq (managerAnalyze st env img).trace = false := by
  have hne : ¬ st.currentPipeline = .ollama := by
    rw [h]
    intro hc
    cases hc
  unfold managerAnalyze
  rw [if_neg hne]
  cases hb : browserAnalyze st.engineState (env.engineAnalyze img) <;>
    simp [hasRemoteReq, h]

/-- Once the working pipeline is `browser`, any sequence of subsequent
`analyze` calls keeps it `browser` and issues no remote generation
request. -/
lemma runAnalyses_browser (calls : List (ManagerEnv × String)) :
    ∀ st : ManagerState, st.currentPipeline = .browser →
      (runAnalyses st calls).1.currentPipeline = .browser
      ∧ hasRemoteReq (runAnalyses st calls).2 = false := by
  induction calls with
  | nil =>
      intro st h
      simp [runAnalyses, hasRemoteReq, h]
  | cons c rest ih =>
      intro st h
      obtain ⟨env, img⟩ := c
      have hstep := analyze_browser_preserves st env img h
      have hrest := ih (managerAnalyze st env img).state hstep.1
      unfold runAnalyses
      refine ⟨hrest.1, ?_⟩
      rw [hasRemoteReq_append, hstep.2, hrest.2]
      rfl

/-- Claim C1: with working pipeline `ollama` (remote), when the remote
request throws and the Local Fallback Engine's analysis succeeds, the
`analyze` call resolves successfully with the local engine's result, the
working pipeline permanently becomes `browser` (so `getCurrentPipeline()`
returns `browser`), and no later `analyze` call retries remote: every
subsequent sequence of calls keeps the pipeline `browser` and issues no
remote request.  (`hinv`: when the manager already marked the engine
initialized, the engine singleton is initialized — the invariant the
manager maintains.) -/
theorem C1_sticky_fallback (st : ManagerState) (env : ManagerEnv) (img : String)
    (e : String) (r : AnalysisResult)
    (hpipe : st.currentPipeline = .ollama)
    (hremote : env.remoteAnalyze img = .error e)
    (hlocal : env.engineAnalyze img = .ok r)
    (hinv : st.browserInitialized = true → st.engineState.engine.initialized = true) :
    (managerAnalyze st env img).result = .ok r
    ∧ (managerAnalyze st env img).state.currentPipeline = .browser
    ∧ getCurrentPipeline (managerAnalyze st env img).state = .browser
    ∧ ∀ calls : List (ManagerEnv × String),
        (runAnalyses (managerAnalyze st env img).state calls).1.currentPipeline
          = .browser
        ∧ hasRemoteReq (runAnalyses (managerAnalyze st env img).state calls).2
          = false := by
  have key : (managerAnalyze st env img).result = .ok r
      ∧ (managerAnalyze st env img).state.currentPipeline = .browser := by
    unfold managerAnalyze
    rw [if_pos hpipe, hremote]
    by_cases hb : st.browserInitialized = false
    · simp [hb, browserAnalyze, browserInitialize, hlocal]
    · have hb' : st.browserInitialized = true := by
        revert hb
        cases st.browserInitialized <;> simp
      have hi := hinv hb'
      simp [hb', browserAnalyze, hi, hlocal]
  refine ⟨key.1, key.2, key.2, fun calls => runAnalyses_browser calls _ key.2⟩

/-- Witness for C1: a fresh remote-configured manager, remote request
throwing, local heuristic succeeding. -/
theorem C1_witness :
    (managerNew cfgOllama).currentPipeline = .ollama
    ∧ envRemoteDown.remoteAnalyze ("img")
        = .error ("Ollama request failed: fetch failed")
    ∧ envRemoteDown.engineAnalyze ("img") = .ok sampleLocalResult
    ∧ ((managerAnalyze (managerNew cfgOllama) envRemoteDown ("img")).result
          = .ok sampleLocalResult
      ∧ (managerAnalyze (managerNew cfgOllama) envRemoteDown ("img")).state.currentPipeline
          = .browser
      ∧ getCurrentPipeline (managerAnalyze (managerNew cfgOllama) envRemoteDown ("img")).state
          = .browser
      ∧ ∀ calls : List (ManagerEnv × String),
          (runAnalyses (managerAnalyze (managerNew cfgOllama) envRemoteDown ("img")).state
              calls).1.currentPipeline = .browser
          ∧ hasRemoteReq (runAnalyses
              (managerAnalyze (managerNew cfgOllama) envRemoteDown ("img")).state
              calls).2 = false) :=
  ⟨rfl, rfl, rfl,
    C1_sticky_fallback (managerNew cfgOllama) envRemoteDown ("img")
      ("Ollama request failed: fetch failed") sampleLocalResult rfl rfl rfl
      (by decide)⟩

/-- `indexOfL` unfolded on a cons cell. -/
lemma indexOfL_cons (pat : List Char) (c : Char) (t : List Char) :
    indexOfL pat (c :: t)
      = if pat.isPrefixOf (c :: t) then some 0
        else (indexOfL pat t).map (fun n => n + 1) := rfl

/-- A prefix test that fits inside the left part of an append ignores the
right part. -/
lemma isPrefixOf_append_left (pat l m : List Char) (h : pat.length ≤ l.length) :
    pat.isPrefixOf (l ++ m) = pat.isPrefixOf l := by
  induction pat generalizing l with
  | nil => simp [List.isPrefixOf]
  | cons a as ih =>
      cases l with
      | nil => simp at h
      | cons b bs =>
          simp only [List.cons_append, List.isPrefixOf]
          rw [show bs.append m = bs ++ m from rfl, ih bs (by simpa using h)]

/-- A first occurrence that fits inside the left part of an append is also
the first occurrence in the whole append. -/
lemma indexOfL_append_of_fits (pat l m : List Char) (i : ℕ)
    (h : indexOfL pat l = some i) (hle : i + pat.length ≤ l.length) :
    indexOfL pat (l ++ m) = some i := by
  induction l generalizing i with
  | nil =>
      unfold indexOfL at h
      split at h
      · next hp =>
          have hpat : pat = [] := by
            cases pat with
            | nil => rfl
            | cons x xs => simp [List.isPrefixOf] at hp
          injection h with h0
          subst hpat
          cases m <;> simp [indexOfL, List.isPrefixOf, ← h0]
      · exact absurd h (by simp)
  | cons c t ih =>
      rw [List.cons_append, indexOfL_cons]
      by_cases hp : pat.isPrefixOf (c :: t) = true
      · have h0 : i = 0 := by
          rw [indexOfL_cons, if_pos hp] at h
          injection h with h0
          omega
        subst h0
        have hp' : pat.isPrefixOf (c :: (t ++ m)) = true := by
          have hh := isPrefixOf_append_left pat (c :: t) m (by simpa using hle)
          rw [List.cons_append] at hh
          rw [hh]
          exact hp
        rw [if_pos hp']
      · have hpf : pat.isPrefixOf (c :: t) = false := by
          revert hp
          cases pat.isPrefixOf (c :: t) <;> simp
        have hrec : (indexOfL pat t).map (fun n => n + 1) = some i := by
          rw [indexOfL_cons, hpf] at h
          simpa using h
        obtain ⟨j, hj, hji⟩ := Option.map_eq_some'.mp hrec
        have hjle : j + pat.length ≤ t.length := by
          simp only [List.length_cons] at hle
          omega
        have hp' : pat.isPrefixOf (c :: (t ++ m)) = false := by
          have hh := isPrefixOf_append_left pat (c :: t) m
            (by simp only [List.length_cons]; omega)
          rw [List.cons_append] at hh
          rw [hh]
          exact hpf
        rw [if_neg (by simp [hp']), ih j hj hjle]
        simp [hji]
/-- In any well-formed JPEG base64 data URL the first `base64,` marker
sits at index 16, whatever the payload. -/
lemma indexOfL_header (payload : List Char) :
    indexOfL (("base64,").toList) ((("data:image/jpeg;base64,").toList) ++ payload)
      = some 16 :=
  indexOfL_append_of_fits (("base64,").toList)
    (("data:image/jpeg;base64,").toList) payload 16 (by decide) (by decide)

/-- Any well-formed JPEG base64 data URL starts with `data:`, whatever
the payload. -/
lemma startsWith_header (payload : List Char) :
    (("data:").toList).isPrefixOf
      ((("data:image/jpeg;base64,").toList) ++ payload) = true := by
  rw [isPrefixOf_append_left _ _ _ (by decide)]
  decide

/-- Claim C6, counterexample: the input `"data:,AAAA"` (a data URL without
a `base64,` marker) is transmitted unchanged as `images[0]`, so the
transmitted payload still carries the `data:` URI-scheme prefix,
contradicting the claim that no transmitted payload contains one. -/
theorem C6_counterexample :
    (analyzeImageRequest (("data:,AAAA").toList) ("llava:latest")
        ("Describe what you see")).images = [("data:,AAAA").toList]
    ∧ (("data:").toList).isPrefixOf (("data:,AAAA").toList) = true := by
  decide

/-- Claim C6 (amended): `analyze` transmits `images[0] =
stripDataUrlPrefix(input)`; stripping removes everything up to and
including the first `base64,` marker exactly when the input starts with
`data:` and contains the marker — so `"data:image/jpeg;base64,AAAA"` is
transmitted as `"AAAA"`, any well-formed JPEG base64 data URL has its
payload recovered, and an input without the `data:` scheme prefix (in
particular a raw base64 string) is transmitted unchanged; a `data:` input
without a `base64,` marker, however, is also transmitted unchanged,
prefix included. -/
theorem C6_strip_data_url (img : List Char) (model prompt : String) :
    (analyzeImageRequest img model prompt).images = [stripDataUrl img]
    ∧ stripDataUrl (("data:image/jpeg;base64,AAAA").toList) = ("AAAA").toList
    ∧ ((("data:").toList).isPrefixOf img = false → stripDataUrl img = img)
    ∧ ∀ payload : List Char,
        stripDataUrl ((("data:image/jpeg;base64,").toList) ++ payload) = payload := by
  refine ⟨rfl, by decide, ?_, ?_⟩
  · intro h
    simp only [stripDataUrl, h, Bool.false_eq_true, if_false]
  · intro payload
    unfold stripDataUrl
    rw [if_pos (startsWith_header payload), indexOfL_header payload]
    show List.drop (16 + 7) ((("data:image/jpeg;base64,").toList) ++ payload) = payload
    rw [show (16 + 7 : ℕ) = (("data:image/jpeg;base64,").toList).length from by decide]
    exact List.drop_left _ _

/-- Witness for the amended C6 theorem: a raw base64 input passes through
unchanged, and a well-formed data URL's payload is recovered. -/
theorem C6_witness :
    (("data:").toList).isPrefixOf (("AAAA").toList) = false
    ∧ stripDataUrl (("AAAA").toList) = ("AAAA").toList
    ∧ stripDataUrl ((("data:image/jpeg;base64,").toList) ++ ("BBBB").toList)
        = ("BBBB").toList :=
  ⟨by decide,
    (C6_strip_data_url (("AAAA").toList) ("m") ("p")).2.2.1 (by decide),
    (C6_strip_data_url (("AAAA").toList) ("m") ("p")).2.2.2 (("BBBB").toList)⟩

/-- The pure list transformation `recordLatency` applies to the
`latencies` array. -/
def stepL (l : List ℚ) (x : ℚ) : List ℚ :=
  if maxLatencyHistory < (l ++ [x]).length then (l ++ [x]).drop 1 else l ++ [x]

/-- `recordLatency` transforms `latencies` by `stepL`. -/
lemma recordLatency_latencies (st : MonitorState) (x : ℚ) :
    (recordLatency st x).latencies = stepL st.latencies x := rfl

/-- Folding `recordLatency` over samples folds `stepL` over the array. -/
lemma foldl_latencies (xs : List ℚ) :
    ∀ st : MonitorState,
      (List.foldl recordLatency st xs).latencies = List.foldl stepL st.latencies xs := by
  induction xs with
  | nil => intro st; rfl
  | cons x t ih =>
      intro st
      rw [List.foldl_cons, List.foldl_cons, ih, recordLatency_latencies]

/-- Folding `stepL` from any under-capacity array keeps exactly the last
`maxLatencyHistory` entries of everything seen. -/
lemma foldl_stepL_suffix (xs : List ℚ) :
    ∀ l : List ℚ, l.length ≤ maxLatencyHistory →
      List.foldl stepL l xs = (l ++ xs).drop ((l ++ xs).length - maxLatencyHistory) := by
  induction xs with
  | nil =>
      intro l hl
      simp [Nat.sub_eq_zero_of_le hl]
  | cons x xs ih =>
      intro l hl
      rw [List.foldl_cons]
      by_cases hlen : l.length < maxLatencyHistory
      · have hstep : stepL l x = l ++ [x] := by
          unfold stepL
          rw [if_neg (by simp only [List.length_append, List.length_singleton]; omega)]
        rw [hstep, ih (l ++ [x]) (by simp only [List.length_append, List.length_singleton]; omega)]
        rw [List.append_assoc, List.singleton_append]
      · have hlen' : l.length = maxLatencyHistory := by omega
        have hstep : stepL l x = (l ++ [x]).drop 1 := by
          unfold stepL
          rw [if_pos (by simp only [List.length_append, List.length_singleton]; omega)]
        have hml : (1 : ℕ) ≤ l.length := by
          rw [hlen']
          norm_num [maxLatencyHistory]
        rw [hstep, ih ((l ++ [x]).drop 1)
          (by simp only [List.length_drop, List.length_append, List.length_singleton]; omega)]
        rw [List.drop_append_of_le_length hml, List.append_assoc, List.singleton_append]
        have hlhs : (l.drop 1 ++ x :: xs).length - maxLatencyHistory = xs.length := by
          simp only [List.length_append, List.length_drop, List.length_cons, hlen']
          omega
        have hrhs : (l ++ x :: xs).length - maxLatencyHistory = xs.length + 1 := by
          simp only [List.length_append, List.length_cons, hlen']
          omega
        rw [hlhs, hrhs, show xs.length + 1 = 1 + xs.length from by omega,
          ← List.drop_drop, List.drop_append_of_le_length hml]

/-- The fold of `max` dominates its seed and every listed element. -/
lemma le_foldl_max (t : List ℚ) :
    ∀ a x : ℚ, (x = a ∨ x ∈ t) → x ≤ t.foldl max a := by
  induction t with
  | nil =>
      intro a x h
      rcases h with rfl | h
      · exact le_refl x
      · cases h
  | cons b tt ih =>
      intro a x h
      rw [List.foldl_cons]
      rcases h with rfl | hm
      · exact le_trans (le_max_left x b) (ih (max x b) (max x b) (Or.inl rfl))
      · rcases List.mem_cons.mp hm with rfl | hm'
        · exact le_trans (le_max_right a x) (ih (max a x) (max a x) (Or.inl rfl))
        · exact ih (max a b) x (Or.inr hm')

/-- The fold of `max` is its seed or a listed element. -/
lemma foldl_max_mem (t : List ℚ) :
    ∀ a : ℚ, t.foldl max a = a ∨ t.foldl max a ∈ t := by
  induction t with
  | nil => intro a; left; rfl
  | cons b tt ih =>
      intro a
      rw [List.foldl_cons]
      rcases ih (max a b) with h | h
      · rw [h]
        rcases max_choice a b with h2 | h2 <;> rw [h2]
        · left; rfl
        · right; exact List.mem_cons_self b tt
      · right; exact List.mem_cons_of_mem b h

/-- The fold of `min` is below its seed and every listed element. -/
lemma foldl_min_le (t : List ℚ) :
    ∀ a x : ℚ, (x = a ∨ x ∈ t) → t.foldl min a ≤ x := by
  induction t with
  | nil =>
      intro a x h
      rcases h with rfl | h
      · exact le_refl x
      · cases h
  | cons b tt ih =>
      intro a x h
      rw [List.foldl_cons]
      rcases h with rfl | hm
      · exact le_trans (ih (min x b) (min x b) (Or.inl rfl)) (min_le_left x b)
      · rcases List.mem_cons.mp hm with rfl | hm'
        · exact le_trans (ih (min a x) (min a x) (Or.inl rfl)) (min_le_right a x)
        · exact ih (min a b) x (Or.inr hm')

/-- The fold of `min` is its seed or a listed element. -/
lemma foldl_min_mem (t : List ℚ) :
    ∀ a : ℚ, t.foldl min a = a ∨ t.foldl min a ∈ t := by
  induction t with
  | nil => intro a; left; rfl
  | cons b tt ih =>
      intro a
      rw [List.foldl_cons]
      rcases ih (min a b) with h | h
      · rw [h]
        rcases min_choice a b with h2 | h2 <;> rw [h2]
        · left; rfl
        · right; exact List.mem_cons_self b tt
      · right; exact List.mem_cons_of_mem b h

/-- `Math.max(...l)` on a non-empty array is the true maximum: a member
dominating every member. -/
lemma jsMax_spec (l : List ℚ) (h : l ≠ []) :
    jsMax l ∈ l ∧ ∀ x ∈ l, x ≤ jsMax l := by
  cases l with
  | nil => exact absurd rfl h
  | cons a t =>
      constructor
      · rcases foldl_max_mem t a with h2 | h2
        · rw [show jsMax (a :: t) = t.foldl max a from rfl, h2]
          exact List.mem_cons_self a t
        · exact List.mem_cons_of_mem a h2
      · intro x hx
        exact le_foldl_max t a x (by simpa using List.mem_cons.mp hx)

/-- `Math.min(...l)` on a non-empty array is the true minimum. -/
lemma jsMin_spec (l : List ℚ) (h : l ≠ []) :
    jsMin l ∈ l ∧ ∀ x ∈ l, jsMin l ≤ x := by
  cases l with
  | nil => exact absurd rfl h
  | cons a t =>
      constructor
      · rcases foldl_min_mem t a with h2 | h2
        · rw [show jsMin (a :: t) = t.foldl min a from rfl, h2]
          exact List.mem_cons_self a t
        · exact List.mem_cons_of_mem a h2
      · intro x hx
        exact foldl_min_le t a x (by simpa using List.mem_cons.mp hx)

/-- Claim C7: after any sequence of `recordLatency` calls on a fresh
monitor, the latency history is exactly the suffix of the most recent
`min(count, 50)` samples (oldest evicted first), and `getSummary()`
reports `maxLatency` (resp. `minLatency`) equal to the true maximum
(resp. minimum) of the retained samples — a retained sample dominating
(resp. dominated by) all retained samples — with both reported as zero
when no samples have been recorded. -/
theorem C7_ring_buffer_summary (xs : List ℚ) :
    recordAll xs = xs.drop (xs.length - maxLatencyHistory)
    ∧ (recordAll xs).length = min xs.length maxLatencyHistory
    ∧ (xs = [] →
        (getSummary (List.foldl recordLatency initialMonitor xs) none).maxLatency = 0
        ∧ (getSummary (List.foldl recordLatency initialMonitor xs) none).minLatency = 0)
    ∧ (xs ≠ [] →
        ((getSummary (List.foldl recordLatency initialMonitor xs) none).maxLatency
            ∈ recordAll xs
          ∧ ∀ y ∈ recordAll xs,
              y ≤ (getSummary (List.foldl recordLatency initialMonitor xs) none).maxLatency)
        ∧ ((getSummary (List.foldl recordLatency initialMonitor xs) none).minLatency
            ∈ recordAll xs
          ∧ ∀ y ∈ recordAll xs,
              (getSummary (List.foldl recordLatency initialMonitor xs) none).minLatency
                ≤ y)) := by
  have hmain : recordAll xs = xs.drop (xs.length - maxLatencyHistory) := by
    unfold recordAll
    rw [foldl_latencies xs initialMonitor]
    have h := foldl_stepL_suffix xs ([] : List ℚ) (by simp [maxLatencyHistory])
    simpa using h
  have hlen : (recordAll xs).length = min xs.length maxLatencyHistory := by
    rw [hmain, List.length_drop]
    omega
  refine ⟨hmain, hlen, ?_, ?_⟩
  · intro h
    subst h
    exact ⟨rfl, rfl⟩
  · intro h
    have hpos : 0 < (recordAll xs).length := by
      rw [hlen]
      have : 0 < xs.length := List.length_pos.mpr h
      simp [maxLatencyHistory]
      omega
    have hne : recordAll xs ≠ [] := by
      intro hc
      rw [hc] at hpos
      simp at hpos
    have hlat : (List.foldl recordLatency initialMonitor xs).latencies = recordAll xs :=
      rfl
    have hmax : (getSummary (List.foldl recordLatency initialMonitor xs) none).maxLatency
        = jsMax (recordAll xs) := by
      unfold getSummary
      rw [hlat]
      simp [hpos]
    have hmin : (getSummary (List.foldl recordLatency initialMonitor xs) none).minLatency
        = jsMin (recordAll xs) := by
      unfold getSummary
      rw [hlat]
      simp [hpos]
    rw [hmax, hmin]
    exact ⟨jsMax_spec (recordAll xs) hne, jsMin_spec (recordAll xs) hne⟩

/-- Witness for C7 at the concrete sample sequence `[3, 1, 2]`:
discharges the non-empty hypothesis and yields the max/min
characterization of the retained history. -/
theorem C7_witness :
    ([(3 : ℚ), 1, 2] ≠ [])
    ∧ (((getSummary (List.foldl recordLatency initialMonitor [(3 : ℚ), 1, 2]) none).maxLatency
          ∈ recordAll [(3 : ℚ), 1, 2]
        ∧ ∀ y ∈ recordAll [(3 : ℚ), 1, 2],
            y ≤ (getSummary (List.foldl recordLatency initialMonitor [(3 : ℚ), 1, 2]) none).maxLatency)
      ∧ ((getSummary (List.foldl recordLatency initialMonitor [(3 : ℚ), 1, 2]) none).minLatency
          ∈ recordAll [(3 : ℚ), 1, 2]
        ∧ ∀ y ∈ recordAll [(3 : ℚ), 1, 2],
            (getSummary (List.foldl recordLatency initialMonitor [(3 : ℚ), 1, 2]) none).minLatency
              ≤ y)) :=
  ⟨by decide, (C7_ring_buffer_summary [(3 : ℚ), 1, 2]).2.2.2 (by decide)⟩

/-- Claim C8, counterexample: the progress line `{total: 100, completed:
0}` contains both fields, yet `pullModel` invokes no callback for it (the
JavaScript truthiness guard `data.total && data.completed` rejects the
zero), where the claim demands an invocation with `0/100 × 100 = 0`. -/
theorem C8_counterexample :
    pullLineEvents true { total := some 100, completed := some 0, status := none } = []
    ∧ ([] : List ℚ) ≠ [(0 : ℚ) / 100 * 100] := by
  refine ⟨by decide, by simp⟩

/-- Claim C8 (amended): `pullModel` invokes the progress callback with
`completed/total × 100` whenever a parsed line carries both fields with
truthy (non-zero) values — in particular `{total: 100, completed: 50}`
yields exactly one invocation with exactly 50 — and never invokes a
callback that was not supplied. -/
theorem C8_pull_progress (t c : ℚ) (s : Option String)
    (ht : t ≠ 0) (hc : c ≠ 0) :
    pullLineEvents true { total := some t, completed := some c, status := s }
        = [c / t * 100]
    ∧ pullEvents true [{ total := some 100, completed := some 50, status := none }]
        = [(50 : ℚ)]
    ∧ (∀ line : PullLine, pullLineEvents false line = []) := by
  refine ⟨?_, ?_, ?_⟩
  · unfold pullLineEvents jsTruthy
    simp [ht, hc]
  · norm_num [pullEvents, pullLineEvents, jsTruthy, List.flatMap]
  · intro line
    simp [pullLineEvents]

/-- Witness for the amended C8 theorem at `{total: 100, completed: 50}`. -/
theorem C8_witness :
    ((100 : ℚ) ≠ 0) ∧ ((50 : ℚ) ≠ 0)
    ∧ pullLineEvents true { total := some 100, completed := some 50, status := none }
        = [(50 : ℚ) / 100 * 100] :=
  ⟨by norm_num, by norm_num,
    (C8_pull_progress 100 50 none (by norm_num) (by norm_num)).1⟩

/-- Claim C9, counterexample: calling the engine's `initialize()` on an
already-initialized engine is not a no-op — it re-emits the full loading
progress sequence and re-runs device detection, here changing the stored
state (the selected device flips from `gpu` to `cpu`). -/
theorem C9_counterexample :
    (browserInitialize initialBrowserState .gpu).1.engine.initialized = true
    ∧ (browserInitialize (browserInitialize initialBrowserState .gpu).1 .cpu).2 ≠ []
    ∧ (browserInitialize (browserInitialize initialBrowserState .gpu).1 .cpu).1
        ≠ (browserInitialize initialBrowserState .gpu).1 := by
  refine ⟨by decide, ?_, ?_⟩
  · unfold browserInitialize
    simp
  · intro hc
    have hdev := congrArg (fun s => s.engine.device) hc
    simp [browserInitialize] at hdev

/-- Claim C9 (amended): `BrowserInference.initialize` itself has no
already-initialized guard and re-runs the loading phases on every call;
the no-op behaviour is provided one level up by the `InferenceManager`,
whose `browserInitialized` flag — once set — makes `initialize`,
`analyze` and `switchPipeline` skip engine initialization entirely and
leave the engine state untouched. -/
theorem C9_initialize_guard :
    (∀ (st : BrowserInferenceState) (dev : Device),
      st.engine.initialized = true → (browserInitialize st dev).2 ≠ [])
    ∧ (∀ (st : ManagerState) (env : ManagerEnv), st.browserInitialized = true →
        hasEngineInit (managerInitialize st env).2 = false
        ∧ (managerInitialize st env).1.engineState = st.engineState)
    ∧ (∀ (st : ManagerState) (env : ManagerEnv) (img : String),
        st.browserInitialized = true →
        hasEngineInit (managerAnalyze st env img).trace = false
        ∧ (managerAnalyze st env img).state.engineState = st.engineState)
    ∧ (∀ (st : ManagerState) (env : ManagerEnv) (p : InferencePipeline),
        st.browserInitialized = true →
        hasEngineInit (managerSwitchPipeline st env p).trace = false
        ∧ (managerSwitchPipeline st env p).state.engineState = st.engineState) := by
  refine ⟨?_, ?_, ?_, ?_⟩
  · intro st dev _h
    unfold browserInitialize
    simp
  · intro st env hbi
    unfold managerInitialize
    by_cases hp : st.currentPipeline = .ollama
    · cases ha : env.ollamaAvailable <;> simp [hp, ha, hbi, hasEngineInit]
    · simp [hp, hbi, hasEngineInit]
  · intro st env img hbi
    unfold managerAnalyze
    by_cases hp : st.currentPipeline = .ollama
    · rw [if_pos hp]
      cases hr : env.remoteAnalyze img with
      | ok r => simp [hasEngineInit]
      | error e =>
          cases hb : browserAnalyze st.engineState (env.engineAnalyze img) <;>
            simp [hbi, hasEngineInit, hb]
    · rw [if_neg hp]
      cases hb : browserAnalyze st.engineState (env.engineAnalyze img) <;>
        simp [hasEngineInit, hb]
  · intro st env p hbi
    unfold managerSwitchPipeline
    by_cases he : p = st.currentPipeline
    · simp [he, hasEngineInit]
    · rw [if_neg he]
      cases p with
      | ollama => cases ha : env.ollamaAvailable <;> simp [ha, hasEngineInit]
      | browser => simp [hbi, hasEngineInit]

/-- A manager whose engine is initialized and flagged as such. -/
def mgrReady : ManagerState :=
  { config := cfgBrowser
    currentPipeline := .browser
    browserInitialized := true
    engineState := (browserInitialize initialBrowserState .gpu).1 }

/-- Witness for the amended C9 theorem: an initialized engine re-emits
progress, while the flagged manager's operations skip engine
initialization. -/
theorem C9_witness :
    (browserInitialize initialBrowserState .gpu).1.engine.initialized = true
    ∧ (browserInitialize (browserInitialize initialBrowserState .gpu).1 .cpu).2 ≠ []
    ∧ (hasEngineInit (managerInitialize mgrReady envRemoteDown).2 = false
      ∧ (managerInitialize mgrReady envRemoteDown).1.engineState = mgrReady.engineState)
    ∧ (hasEngineInit (managerAnalyze mgrReady envRemoteDown ("img")).trace = false
      ∧ (managerAnalyze mgrReady envRemoteDown ("img")).state.engineState
          = mgrReady.engineState)
    ∧ (hasEngineInit (managerSwitchPipeline mgrReady envRemoteDown .ollama).trace = false
      ∧ (managerSwitchPipeline mgrReady envRemoteDown .ollama).state.engineState
          = mgrReady.engineState) :=
  ⟨by decide,
    C9_initialize_guard.1 (browserInitialize initialBrowserState .gpu).1 .cpu (by decide),
    C9_initialize_guard.2.1 mgrReady envRemoteDown rfl,
    C9_initialize_guard.2.2.1 mgrReady envRemoteDown ("img") rfl,
    C9_initialize_guard.2.2.2 mgrReady envRemoteDown .ollama rfl⟩

/-- `PerformanceMonitor.getMetrics` (returns a copy of `currentMetrics`). -/
def getMetrics (st : MonitorState) : PerformanceMetrics :=
  st.currentMetrics

/-- A host reading of 2 GB total heap. -/
def memHigh : MemBytes :=
  { usedJSHeapSize := 0, totalJSHeapSize := 2 * (1024 * 1024 * 1024) }

/-- A host reading of 1 GB total heap. -/
def memLow : MemBytes :=
  { usedJSHeapSize := 0, totalJSHeapSize := 1024 * 1024 * 1024 }

/-- Claim C10, counterexample: `getSummary().peakMemory` re-reads the
instantaneous `totalJSHeapSize` on every call instead of the maintained
high-water mark, so when the host's total heap shrinks from 2 GB to 1 GB
two successive `getSummary()` calls — with a monitoring tick and no
`reset()` in between — report a *smaller* `peakMemory`. -/
theorem C10_counterexample :
    (getSummary initialMonitor (some memHigh)).peakMemory = 2
    ∧ (getSummary (memoryMonitorTick initialMonitor (some memHigh))
        (some memLow)).peakMemory = 1
    ∧ (1 : ℚ) < 2 := by
  refine ⟨?_, ?_, by norm_num⟩ <;>
    norm_num [getSummary, memoryMonitorTick, getPeakMemory, getMemoryUsage,
      initialMonitor, memHigh, memLow]

/-- Ordering on the optional stored high-water mark: whatever value is
stored can only grow. -/
def peakLE (a b : Option ℚ) : Prop :=
  ∀ x : ℚ, a = some x → ∃ y : ℚ, b = some y ∧ x ≤ y

/-- Monitor operations observe physically meaningful (non-negative) host
heap readings. -/
def opNonneg : MonitorOp → Prop
  | .tick (some m) => 0 ≤ m.totalJSHeapSize
  | _ => True

/-- `peakLE` is reflexive. -/
lemma peakLE_refl (a : Option ℚ) : peakLE a a :=
  fun x h => ⟨x, h, le_refl x⟩

/-- `peakLE` is transitive. -/
lemma peakLE_trans {a b c : Option ℚ} (h1 : peakLE a b) (h2 : peakLE b c) :
    peakLE a c := by
  intro x hx
  obtain ⟨y, hy, hxy⟩ := h1 x hx
  obtain ⟨z, hz, hyz⟩ := h2 y hy
  exact ⟨z, hz, le_trans hxy hyz⟩

/-- `getPeakMemory` of a non-negative host reading is non-negative. -/
lemma getPeakMemory_nonneg (mem : Option MemBytes)
    (h : ∀ m : MemBytes, mem = some m → 0 ≤ m.totalJSHeapSize) :
    0 ≤ getPeakMemory mem := by
  cases mem with
  | none => simp [getPeakMemory]
  | some m =>
      unfold getPeakMemory
      have := h m rfl
      positivity

/-- One monitor operation can only raise the stored high-water mark. -/
lemma peakLE_step (st : MonitorState) (op : MonitorOp) (h : opNonneg op) :
    peakLE st.currentMetrics.peakMemory
      (applyMonitorOp st op).currentMetrics.peakMemory := by
  cases op with
  | record l => exact peakLE_refl _
  | setGPU b => exact peakLE_refl _
  | tick mem =>
      intro x hx
      have hpk : 0 ≤ getPeakMemory mem := by
        apply getPeakMemory_nonneg
        intro m hm
        subst hm
        simpa [opNonneg] using h
      show ∃ y, (memoryMonitorTick st mem).currentMetrics.peakMemory = some y ∧ x ≤ y
      unfold memoryMonitorTick
      rw [hx]
      by_cases hz : x = 0 ∨ x < getPeakMemory mem
      · refine ⟨getPeakMemory mem, by simp [hz], ?_⟩
        rcases hz with rfl | hlt
        · exact hpk
        · exact le_of_lt hlt
      · exact ⟨x, by simp [hz], le_refl x⟩

/-- Claim C10 (amended): the high-water mark the monitor *maintains* —
`currentMetrics.peakMemory`, updated by `startMemoryMonitoring` ticks and
reported by `getMetrics()` — is monotone: over any sequence of
`recordLatency` / monitoring-tick / `setGPUActive` operations (no
`reset()`) with non-negative host readings it never decreases.
`getSummary().peakMemory`, by contrast, re-reads the instantaneous
`totalJSHeapSize` and may decrease between successive calls (see the
counterexample). -/
theorem C10_peak_memory (st : MonitorState) (ops : List MonitorOp)
    (h : ∀ op ∈ ops, opNonneg op) :
    peakLE (getMetrics st).peakMemory
      (getMetrics (applyMonitorOps st ops)).peakMemory := by
  induction ops generalizing st with
  | nil => exact peakLE_refl _
  | cons op rest ih =>
      have hstep := peakLE_step st op (h op (List.mem_cons_self op rest))
      have hrest := ih (applyMonitorOp st op)
        (fun o ho => h o (List.mem_cons_of_mem op ho))
      exact peakLE_trans hstep hrest

/-- Witness for the amended C10 theorem over a concrete two-tick run. -/
theorem C10_witness :
    (∀ op ∈ [MonitorOp.tick (some memHigh), MonitorOp.tick (some memLow)], opNonneg op)
    ∧ peakLE (getMetrics initialMonitor).peakMemory
        (getMetrics (applyMonitorOps initialMonitor
          [MonitorOp.tick (some memHigh), MonitorOp.tick (some memLow)])).peakMemory := by
  have hops : ∀ op ∈ [MonitorOp.tick (some memHigh), MonitorOp.tick (some memLow)],
      opNonneg op := by
    intro op hop
    rcases List.mem_cons.mp hop with rfl | hop2
    · norm_num [opNonneg, memHigh]
    · rcases List.mem_cons.mp hop2 with rfl | hop3
      · norm_num [opNonneg, memLow]
      · cases hop3
  exact ⟨hops, C10_peak_memory initialMonitor
    [MonitorOp.tick (some memHigh), MonitorOp.tick (some memLow)] hops⟩
